import Mathlib

/-!
# Verification of the MeerK40t job-execution pipeline

Shallow embedding of the GRBL controller (`src/meerk40t/grbl/controller.py`),
the engrave-operation cut assembler (`src/meerk40t/core/node/op_engrave.py`)
and the Newly driver (`src/meerk40t/newly/driver.py`), together with proofs
of the specified invariants, protocol and error-handling properties.

Python strings are modelled as Lean `String`, Python ints as `Int`/`Nat`,
the byte transport as an explicit input list (reads) plus an event trace
(writes).  Exceptions are modelled with `Except`.
-/

namespace Grbl

/-- Errors that `GrblController._recv_response` can raise: the `IndexError`
from `list.pop(0)` on an empty list, and the `ConnectionAbortedError` the
handler re-raises on a protocol desync. -/
inductive GrblError where
  | indexError
  | connectionAborted
  deriving DecidableEq, Repr

/-- Observable transport/protocol events of the controller: a normal-queue
line written to the connection, a realtime-queue line written to the
connection, and a response line read from the connection. -/
inductive Event where
  | sendLine (line : String)
  | sendRealtime (line : String)
  | recv (resp : String)
  deriving DecidableEq, Repr

/-- The mutable state of `GrblController` that the claims concern:
the normal sending queue, the realtime queue, the in-flight queue
`commands_in_device_buffer`, the running byte count `buffered_characters`
(a Python int, so `Int`), and the configured `device_buffer_size`. -/
structure GrblState where
  sending_queue : List String
  realtime_queue : List String
  commands_in_device_buffer : List String
  buffered_characters : Int
  device_buffer_size : Int
  deriving DecidableEq, Repr

/-- Initial controller state built by `GrblController.__init__`: all queues
empty, `buffered_characters = 0`, buffer size from configuration. -/
def initState (size : Int) : GrblState :=
  { sending_queue := []
    realtime_queue := []
    commands_in_device_buffer := []
    buffered_characters := 0
    device_buffer_size := size }

/-- Sum of the lengths of the in-flight queue entries,
`sum(len(x) for x in commands_in_device_buffer)`. -/
def inflightSum (l : List String) : Int :=
  (l.map fun x => (x.length : Int)).sum

/-- The cancel control code `"\x18"` (CAN) tested for by
`GrblController.realtime`. -/
def cancelChar : Char := Char.ofNat 24

/-- The membership test `"\x18" in data`: a one-character substring is
contained in `data` exactly when the character occurs in it. -/
def containsCancel (data : String) : Bool :=
  data.toList.contains cancelChar

/-- Python method `GrblController.write(data)`: append `data` to the normal sending
queue (under the lock; signalling is I/O and not part of the state). -/
def write (s : GrblState) (data : String) : GrblState :=
  { s with sending_queue := s.sending_queue ++ [data] }

/-- Python method `GrblController.realtime(data)`: append `data` to the realtime queue;
if `data` contains the cancel control code `"\x18"`, clear the normal
sending queue.  Both mutations happen inside one `with self._lock:` block,
so the embedding performs them as a single atomic step. -/
def realtime (s : GrblState) (data : String) : GrblState :=
  let s' := { s with realtime_queue := s.realtime_queue ++ [data] }
  if containsCancel data then
    { s' with sending_queue := [] }
  else
    s'

/-- Python method `GrblController._sending_realtime`: write `self._realtime_queue[0]` to
the connection, then pop it.  Python raises `IndexError` when the queue is
empty; the method is only invoked under `while self._realtime_queue`,
modelled here by returning `none` on an empty queue. -/
def sendingRealtime (s : GrblState) : Option (GrblState × Event) :=
  match s.realtime_queue with
  | [] => none
  | line :: rest =>
      some ({ s with realtime_queue := rest }, Event.sendRealtime line)

/-- Python method `GrblController._sending_single_line`: write `self._sending_queue[0]`
to the connection, append it to `commands_in_device_buffer`, add its
length to `buffered_characters`, and pop it from the sending queue.
`none` models the `IndexError` branch on an empty queue (never reached
from the senders, which guard the call). -/
def sendingSingleLine (s : GrblState) : Option (GrblState × Event) :=
  match s.sending_queue with
  | [] => none
  | line :: rest =>
      some
        ({ s with
            sending_queue := rest
            commands_in_device_buffer := s.commands_in_device_buffer ++ [line]
            buffered_characters := s.buffered_characters + line.length },
          Event.sendLine line)

/-- Python property `GrblController._length_of_next_line`: `0` when the sending queue is
empty, else the length of its head line. -/
def lengthOfNextLine (s : GrblState) : Int :=
  match s.sending_queue with
  | [] => 0
  | line :: _ => (line.length : Int)

/-- Python `list.pop(0)` on a list of strings: `IndexError` when empty,
else the head and the remaining list. -/
def popFirst (l : List String) : Except GrblError (String × List String) :=
  match l with
  | [] => Except.error GrblError.indexError
  | x :: xs => Except.ok (x, xs)

/-- The read loop `while not response: response = self.connection.read()` — skip falsy
reads (modelled by `""`) until a non-empty line arrives; `none` models the
sender blocking forever because the transport never delivers one. -/
def readResponse (inputs : List String) : Option (String × List String) :=
  match inputs with
  | [] => none
  | r :: rest => if r = "" then readResponse rest else some (r, rest)

/-- Classification outcome of one `_recv_response` call:
`popped` is the `"ok"` path (returns `True` after consuming one in-flight
entry); `handled` covers the `echo:`/`ALARM`/`error`/other branches, none
of which touch the in-flight queue (the method returns `None`). -/
inductive RecvOutcome where
  | popped (line : String)
  | handled (resp : String)
  deriving DecidableEq, Repr

/-- Classification part of `GrblController._recv_response`, applied to the
response line obtained from the blocking read: on `"ok"` pop the oldest
in-flight entry and subtract its length
(`except IndexError: ... raise ConnectionAbortedError`); every other
response (`echo:`, `ALARM`, `error`, unclassified data) is handled without
consuming an in-flight slot. -/
def processResponse (s : GrblState) (resp : String) :
    Except GrblError (GrblState × RecvOutcome) :=
  if resp = "ok" then
    match popFirst s.commands_in_device_buffer with
    | Except.error GrblError.indexError =>
        -- `except IndexError:` logs and raises ConnectionAbortedError
        Except.error GrblError.connectionAborted
    | Except.error e => Except.error e
    | Except.ok (line, remaining) =>
        Except.ok
          ({ s with
              commands_in_device_buffer := remaining
              buffered_characters := s.buffered_characters - line.length },
            RecvOutcome.popped line)
  else
    Except.ok (s, RecvOutcome.handled resp)

/-- Python method `GrblController._recv_response`: block for a non-empty response line,
then classify it.  `none` models the sender blocking forever because the
transport never delivers a non-empty line; otherwise the raised error, or
the new state, the outcome and the remaining input. -/
def recvResponse (s : GrblState) (inputs : List String) :
    Option (Except GrblError (GrblState × RecvOutcome × List String)) :=
  match readResponse inputs with
  | none => none
  | some (resp, rest) =>
      some ((processResponse s resp).map fun x => (x.1, x.2, rest))

/-- How one sender-iteration ends: `done` (iteration completed, sender
loops again), `blocked` (stuck in a transport read), or `fatal`
(an exception — `ConnectionAbortedError` — propagates and terminates the
sender task). -/
inductive SenderOutcome where
  | done (s : GrblState) (remaining : List String)
  | blocked (s : GrblState)
  | fatal (e : GrblError) (s : GrblState)
  deriving DecidableEq, Repr

/-- The loop `while self._realtime_queue: self._sending_realtime()` — drain the
realtime queue, emitting one `sendRealtime` event per entry in order. -/
def drainRealtime (s : GrblState) : GrblState × List Event :=
  match h : s.realtime_queue with
  | [] => (s, [])
  | line :: rest =>
      let s' := { s with realtime_queue := rest }
      let r := drainRealtime s'
      (r.1, Event.sendRealtime line :: r.2)
termination_by s.realtime_queue.length
decreasing_by simp [h]

/-- The buffered-mode send loop
`while self._sending_queue and self.device_buffer_size >
(self.buffered_characters + self._length_of_next_line):
self._sending_single_line()`. -/
def sendWhileFits (s : GrblState) : GrblState × List Event :=
  match h : s.sending_queue with
  | [] => (s, [])
  | line :: rest =>
      if s.device_buffer_size > s.buffered_characters + line.length then
        let s' := { s with
          sending_queue := rest
          commands_in_device_buffer := s.commands_in_device_buffer ++ [line]
          buffered_characters := s.buffered_characters + line.length }
        let r := sendWhileFits s'
        (r.1, Event.sendLine line :: r.2)
      else
        (s, [])
termination_by s.sending_queue.length
decreasing_by simp [h]

theorem readResponse_length {inputs : List String} {resp : String}
    {rest : List String} (h : readResponse inputs = some (resp, rest)) :
    rest.length < inputs.length := by
  induction inputs with
  | nil => simp [readResponse] at h
  | cons x xs ih =>
      rw [readResponse] at h
      by_cases hx : x = ""
      · rw [if_pos hx] at h
        exact Nat.lt_trans (ih h) (Nat.lt_succ_self _)
      · rw [if_neg hx] at h
        injection h with h
        injection h with h1 h2
        subst h2
        exact Nat.lt_succ_self _

/-- The loop `while self.commands_in_device_buffer: self._recv_response()` — the
buffered-mode acknowledgment drain.  One `recv` event per read; `"ok"`
responses pop in-flight entries; a desync raises and propagates. -/
def drainAcks (s : GrblState) (inputs : List String) :
    List Event × SenderOutcome :=
  match s.commands_in_device_buffer with
  | [] => ([], SenderOutcome.done s inputs)
  | _ :: _ =>
      match h : readResponse inputs with
      | none => ([], SenderOutcome.blocked s)
      | some (resp, rest) =>
          match processResponse s resp with
          | Except.error e => ([Event.recv resp], SenderOutcome.fatal e s)
          | Except.ok (s', _) =>
              let r := drainAcks s' rest
              (Event.recv resp :: r.1, r.2)
termination_by inputs.length
decreasing_by exact readResponse_length h

/-- Python method `GrblController._sending_buffered`: drain the realtime queue, send
normal lines while they fit the device buffer, then drain pending
acknowledgments. -/
def sendingBuffered (s : GrblState) (inputs : List String) :
    List Event × SenderOutcome :=
  let r1 := drainRealtime s
  let r2 := sendWhileFits r1.1
  let r3 := drainAcks r2.1 inputs
  (r1.2 ++ r2.2 ++ r3.1, r3.2)

/-- Python method `GrblController._sending_sync`: drain the realtime queue; then, if the
sending queue is non-empty, send exactly one line
(`_sending_single_line`) and perform exactly one `_recv_response`. -/
def sendingSync (s : GrblState) (inputs : List String) :
    List Event × SenderOutcome :=
  let r1 := drainRealtime s
  let s1 := r1.1
  match s1.sending_queue with
  | [] => (r1.2, SenderOutcome.done s1 inputs)
  | line :: rest =>
      let s2 : GrblState :=
        { s1 with
          sending_queue := rest
          commands_in_device_buffer := s1.commands_in_device_buffer ++ [line]
          buffered_characters := s1.buffered_characters + line.length }
      match readResponse inputs with
      | none => (r1.2 ++ [Event.sendLine line], SenderOutcome.blocked s2)
      | some (resp, restIn) =>
          match processResponse s2 resp with
          | Except.error e =>
              (r1.2 ++ [Event.sendLine line, Event.recv resp],
                SenderOutcome.fatal e s2)
          | Except.ok (s3, _) =>
              (r1.2 ++ [Event.sendLine line, Event.recv resp],
                SenderOutcome.done s3 restIn)

/-- The atomic state transitions of the controller: a producer-side
`write`/`realtime` call, a realtime send, a normal-line send, or the
processing of one response line.  The sender loops are sequences of these
steps. -/
inductive Step : GrblState → GrblState → Prop where
  | stepWrite (s : GrblState) (data : String) : Step s (write s data)
  | stepRealtime (s : GrblState) (data : String) : Step s (realtime s data)
  | stepSendRealtime (s s' : GrblState) (ev : Event) :
      sendingRealtime s = some (s', ev) → Step s s'
  | stepSendLine (s s' : GrblState) (ev : Event) :
      sendingSingleLine s = some (s', ev) → Step s s'
  | stepRecv (s s' : GrblState) (resp : String) (o : RecvOutcome) :
      processResponse s resp = Except.ok (s', o) → Step s s'

/-- States reachable from the freshly constructed controller. -/
def Reachable (size : Int) (s : GrblState) : Prop :=
  Relation.ReflTransGen Step (initState size) s

/-- The device-buffer bookkeeping invariant: `buffered_characters` equals
the sum of the lengths of the in-flight entries. -/
def BufferInv (s : GrblState) : Prop :=
  s.buffered_characters = inflightSum s.commands_in_device_buffer

/-- External interactions with a controller running in sync mode: a
`write` call, a `realtime` call, or one iteration of the sender loop
consuming transport input. -/
inductive Act where
  | actWrite (data : String)
  | actRealtime (data : String)
  | actIter (inputs : List String)

/-- Run a sequence of interactions against a sync-mode controller,
collecting the transport events.  A blocked or fatally terminated sender
iteration produces no further events (the sender task is stuck or dead). -/
def runSync (s : GrblState) : List Act → List Event
  | [] => []
  | Act.actWrite d :: rest => runSync (write s d) rest
  | Act.actRealtime d :: rest => runSync (realtime s d) rest
  | Act.actIter inputs :: rest =>
      let r := sendingSync s inputs
      match r.2 with
      | SenderOutcome.done s' _ => r.1 ++ runSync s' rest
      | SenderOutcome.blocked _ => r.1
      | SenderOutcome.fatal _ _ => r.1

/-- Alternation check over a transport trace: `outstanding` records
whether a normal-queue line has been sent without a response having been
read since.  `altOk false tr = true` says the trace never performs two
normal-queue sends without an intervening receive. -/
def altOk : Bool → List Event → Bool
  | _, [] => true
  | outstanding, Event.sendLine _ :: rest => !outstanding && altOk true rest
  | _, Event.recv _ :: rest => altOk false rest
  | outstanding, Event.sendRealtime _ :: rest => altOk outstanding rest

end Grbl

namespace Cut

/-- Geometry points.  The repository manipulates `svgelements` points; the
claims only involve exact comparisons at integer coordinates, so points
are modelled with integer coordinates. -/
abbrev Point := Int × Int

/-- The `svgelements` path segment kinds dispatched on by
`EngraveOpNode.as_cutobjects`: `Move`, `Close`, `Line`,
`QuadraticBezier`, `CubicBezier` (arcs are approximated with cubics
before the walk). -/
inductive Seg where
  | move (s e : Point)
  | close (s e : Point)
  | line (s e : Point)
  | quad (s c e : Point)
  | cubic (s c1 c2 e : Point)
  deriving DecidableEq, Repr

/-- The cut primitives appended to the group by the segment walk
(`LineCut`, `QuadCut`, `CubicCut`). -/
inductive RawCut where
  | lineCut (s e : Point)
  | quadCut (s c e : Point)
  | cubicCut (s c1 c2 e : Point)
  deriving DecidableEq, Repr

/-- One step of the segment walk in `as_cutobjects`: `Move` segments are
ignored; `Close` and `Line` segments of nonzero length become a
`LineCut`; quadratic and cubic segments become `QuadCut`/`CubicCut`. -/
def segCuts : Seg → List RawCut
  | Seg.move _ _ => []
  | Seg.close s e => if s ≠ e then [RawCut.lineCut s e] else []
  | Seg.line s e => if s ≠ e then [RawCut.lineCut s e] else []
  | Seg.quad s c e => [RawCut.quadCut s c e]
  | Seg.cubic s c1 c2 e => [RawCut.cubicCut s c1 c2 e]

/-- The full segment walk: `for seg in subpath: ...` appending cuts in
order. -/
def buildCuts : List Seg → List RawCut
  | [] => []
  | seg :: rest => segCuts seg ++ buildCuts rest

/-- A subpath as produced by `path.as_subpaths()`.  `Path.z_point` and
`Path.current_point` live in `svgelements`, which is not part of the
analysed sources.  Modelled from the spec: `zPoint` is the subpath's
start point (the point a closing segment returns to) and `currentPoint`
is the subpath's end point, carried as explicit fields. -/
structure Subpath where
  segs : List Seg
  zPoint : Point
  currentPoint : Point

/-- The test `isinstance(sp[-1], Close)` — does the subpath end with an explicit
closing segment? -/
def lastIsClose (segs : List Seg) : Bool :=
  match segs.getLast? with
  | some (Seg.close _ _) => true
  | _ => false

/-- Squared Euclidean distance between two points. -/
def distSq (p q : Point) : Int :=
  (p.1 - q.1) * (p.1 - q.1) + (p.2 - q.2) * (p.2 - q.2)

/-- The `closed` determination of `as_cutobjects`:
`isinstance(sp[-1], Close) or abs(sp.z_point - sp.current_point) <=
closed_distance`.  The executable form compares squared distances; its
equivalence with the source's `abs(...) <= closed_distance` (a real
square root) is proved, for nonnegative tolerance, in the theorem for the
closure classification. -/
def subpathClosed (sp : Subpath) (closed_distance : Int) : Bool :=
  lastIsClose sp.segs
    || decide (distSq sp.zPoint sp.currentPoint
        ≤ closed_distance * closed_distance)

/-- The closure test exactly as the source words it, over the reals:
the subpath ends with a `Close` segment, or the Euclidean distance from
`z_point` to `current_point` is at most `closed_distance`. -/
def closedReal (sp : Subpath) (closed_distance : Int) : Prop :=
  lastIsClose sp.segs = true
    ∨ Real.sqrt ((distSq sp.zPoint sp.currentPoint : ℤ) : ℝ)
        ≤ (closed_distance : ℝ)

/-- A wired member of a `CutGroup`.  Python links `next`/`previous` by
object reference to siblings of the same group; the embedding uses the
sibling's index in the group, so `next = j` models
`cut_obj.next is group[j]`. -/
structure CutObject where
  cut : RawCut
  closed : Bool
  first : Bool
  last : Bool
  next : Nat
  previous : Nat
  deriving DecidableEq, Repr

/-- The flag/link assignment performed by the wiring loop of
`as_cutobjects` for the member at index `i` of a group of `n` members:
`first` was set on `group[0]` beforehand; `cut_obj.next = group[i+1]`
raises `IndexError` exactly when `i + 1 = n`, in which case `last` is set
and `next` wraps to `group[0]`; `previous = group[i-1]`, where Python's
`group[-1]` is the final member. -/
def wireObj (n : Nat) (closed : Bool) (i : Nat) (c : RawCut) : CutObject :=
  { cut := c
    closed := closed
    first := decide (i = 0)
    last := decide (i + 1 = n)
    next := if i + 1 < n then i + 1 else 0
    previous := if i = 0 then n - 1 else i - 1 }

/-- Wire the members from index `i` onwards. -/
def wireFrom (n : Nat) (closed : Bool) (i : Nat) : List RawCut → List CutObject
  | [] => []
  | c :: rest => wireObj n closed i c :: wireFrom n closed (i + 1) rest

/-- The wiring loop of `as_cutobjects` applied to a whole group. -/
def wire (cuts : List RawCut) (closed : Bool) : List CutObject :=
  wireFrom cuts.length closed 0 cuts

/-- One `CutGroup` as produced by `as_cutobjects` for a subpath: the
wired member list together with the group's `closed` flag. -/
def asCutGroup (sp : Subpath) (closed_distance : Int) :
    List CutObject × Bool :=
  let closed := subpathClosed sp closed_distance
  (wire (buildCuts sp.segs) closed, closed)

end Cut

namespace Newly

abbrev Point := Int × Int

/-- Machine mode tracked for the Newly device: rapid jogging vs
programmed cutting. -/
inductive Mode where
  | rapid
  | program
  deriving DecidableEq, Repr

/-- Observable calls issued by `NewlyDriver.plot_start` to its
`NewlyController` connection, plus `sleep` for one cycle of the pause
busy-wait (`time.sleep(0.05)`). -/
inductive ConEvent where
  | programMode
  | syncEv
  | goto (p : Point)
  | mark (p : Point)
  | update
  | abortEv
  | rapidMode
  | sleep
  deriving DecidableEq, Repr

/-- Modelled from the spec: `NewlyController`
(`meerk40t/newly/controller.py`) is not among the analysed sources; it is
modelled as a trace of issued commands plus the machine-mode and
last-position state the spec describes.  `program_mode`/`rapid_mode`
switch the mode; `goto`/`mark` move the head, so they update the last
known position; `abort` stops the running job, leaving the machine in
rapid mode (spec §8: an abort "leaves rapid mode active"). -/
structure ConState where
  mode : Mode
  lastX : Int
  lastY : Int
  events : List ConEvent
  deriving DecidableEq, Repr

def conProgram (c : ConState) : ConState :=
  { c with mode := Mode.program, events := c.events ++ [ConEvent.programMode] }

def conRapid (c : ConState) : ConState :=
  { c with mode := Mode.rapid, events := c.events ++ [ConEvent.rapidMode] }

def conAbort (c : ConState) : ConState :=
  { c with mode := Mode.rapid, events := c.events ++ [ConEvent.abortEv] }

def conSync (c : ConState) : ConState :=
  { c with events := c.events ++ [ConEvent.syncEv] }

def conGoto (c : ConState) (p : Point) : ConState :=
  { c with lastX := p.1, lastY := p.2, events := c.events ++ [ConEvent.goto p] }

def conMark (c : ConState) (p : Point) : ConState :=
  { c with lastX := p.1, lastY := p.2, events := c.events ++ [ConEvent.mark p] }

def conUpdate (c : ConState) : ConState :=
  { c with events := c.events ++ [ConEvent.update] }

/-- Repeated `time.sleep(0.05)` cycles of the pause busy-wait. -/
def conSleeps (c : ConState) : Nat → ConState
  | 0 => c
  | k + 1 => conSleeps { c with events := c.events ++ [ConEvent.sleep] } k

/-- Cut primitives consumed by the `plot_start` branches under study:
`LineCut`, and `QuadCut`/`CubicCut` unified as a curve.  `q.point(t)` is
the Bézier evaluation from `meerk40t/core/cutcode` (not among the
analysed sources); it is modelled as an abstract sampling function
`pointAt`, where `pointAt k` stands for `q.point((k+1) * (1/interp))`,
the `k`-th of the evenly spaced parameter samples. -/
inductive CutItem where
  | lineCut (s e : Point)
  | curveCut (s : Point) (pointAt : Nat → Point)

/-- Environment of a `plot_start` run: the configured interpolation
resolution `self.service.interpolate`, and oracles for the flags read by
the loop checks.  `self._aborting` and `self.paused` are written by other
threads; `abortPoll j` is the value the `j`-th poll of `_aborting`
observes, and `pausePoll j` the number of busy-wait cycles the pause
check at the same poll point performs before observing `paused ==
False`. -/
structure DrvEnv where
  interpolate : Nat
  abortPoll : Nat → Bool
  pausePoll : Nat → Nat

/-- The per-sample interpolation loop
`for p in range(int(interp)): ...` of the quad/cubic branch: before every
sample the abort flag is polled (`con.abort()` and early return when
set) and the pause flag busy-waits; then one `con.mark(*q.point(t))` is
issued.  Arguments: sample index `k`, samples still to do, connection
state, next poll index.  Returns the connection state, the next poll
index, and whether the run aborted (early `return`). -/
def curveLoop (env : DrvEnv) (pointAt : Nat → Point) :
    Nat → Nat → ConState → Nat → ConState × Nat × Bool
  | _, 0, c, pi => (c, pi, false)
  | k, remaining + 1, c, pi =>
      if env.abortPoll pi then
        (conAbort c, pi + 1, true)
      else
        let c1 := conSleeps c (env.pausePoll pi)
        let c2 := conMark c1 (pointAt k)
        curveLoop env pointAt (k + 1) remaining c2 (pi + 1)

/-- The `for q in queue:` loop of `plot_start`: each iteration forces
program mode, polls the abort flag (issuing `con.abort()` and returning
early when set), then dispatches on the primitive.  The line branch:
`sync`, reposition if the last known position differs from the
segment start, one `mark`, `update`.  The curve branch: `sync`,
reposition likewise, then the interpolation loop and `update`. -/
def runQueue (env : DrvEnv) :
    List CutItem → ConState → Nat → ConState × Nat × Bool
  | [], c, pi => (c, pi, false)
  | q :: rest, c, pi =>
      let c0 := conProgram c
      if env.abortPoll pi then
        (conAbort c0, pi + 1, true)
      else
        match q with
        | CutItem.lineCut s e =>
            let c1 := conSync c0
            let c2 := if (c1.lastX, c1.lastY) ≠ s then conGoto c1 s else c1
            let c3 := conMark c2 e
            runQueue env rest (conUpdate c3) (pi + 1)
        | CutItem.curveCut s pointAt =>
            let c1 := conSync c0
            let c2 := if (c1.lastX, c1.lastY) ≠ s then conGoto c1 s else c1
            let r := curveLoop env pointAt 0 env.interpolate c2 (pi + 1)
            if r.2.2 then
              (r.1, r.2.1, true)
            else
              runQueue env rest (conUpdate r.1) r.2.1

/-- Python method `NewlyDriver.plot_start`: drain the queue; an early `return` (abort)
skips the trailing `con.rapid_mode()`, which otherwise runs after the
queue is exhausted. -/
def plotStart (env : DrvEnv) (queue : List CutItem) (c : ConState)
    (pi : Nat) : ConState :=
  let r := runQueue env queue c pi
  if r.2.2 then r.1 else conRapid r.1

/-- Number of `mark` commands in a trace. -/
def countMarks (evs : List ConEvent) : Nat :=
  evs.countP fun e =>
    match e with
    | ConEvent.mark _ => true
    | _ => false

/-- Transport-level errors raised by `NewlyController` operations:
Python's `ConnectionError`, or any other exception type. -/
inductive XErr where
  | connectionError
  | otherError
  deriving DecidableEq, Repr

/-- Outcomes of the three connection calls a `move_abs`/`move_rel`
performs (`sync`, `set_xy`, `update`), plus the driver's `_aborting`
flag at call time — which the source never consults in these methods.
The coordinate arithmetic (unit conversion, axis swap, relative offset)
involves external collaborators and does not affect the error flow, so
it is elided. -/
structure MoveEnv where
  syncErr : Option XErr
  setXyErr : Option XErr
  updateErr : Option XErr
  abortRequested : Bool
  deriving DecidableEq, Repr

/-- Python method `NewlyDriver.move_abs`: `sync()`, then `set_xy(...)` wrapped in
`try: ... except ConnectionError: pass`, then `update()`.  Only a
`ConnectionError` from `set_xy` is caught; everything else
propagates. -/
def move_abs (env : MoveEnv) : Except XErr Unit :=
  match env.syncErr with
  | some e => Except.error e
  | none =>
      match env.setXyErr with
      | some XErr.connectionError =>
          -- except ConnectionError: pass
          match env.updateErr with
          | some e => Except.error e
          | none => Except.ok ()
      | some e => Except.error e
      | none =>
          match env.updateErr with
          | some e => Except.error e
          | none => Except.ok ()

/-- Python method `NewlyDriver.move_rel`: identical control flow — `sync()`, a
`try/except ConnectionError` around `set_xy(last + delta)`, then
`update()`. -/
def move_rel (env : MoveEnv) : Except XErr Unit :=
  match env.syncErr with
  | some e => Except.error e
  | none =>
      match env.setXyErr with
      | some XErr.connectionError =>
          -- except ConnectionError: pass
          match env.updateErr with
          | some e => Except.error e
          | none => Except.ok ()
      | some e => Except.error e
      | none =>
          match env.updateErr with
          | some e => Except.error e
          | none => Except.ok ()

end Newly

/-! ## Helper lemmas -/

namespace Grbl

theorem inflightSum_nil : inflightSum [] = 0 := rfl

theorem inflightSum_cons (x : String) (l : List String) :
    inflightSum (x :: l) = (x.length : Int) + inflightSum l := by
  simp [inflightSum]

theorem inflightSum_append_one (l : List String) (x : String) :
    inflightSum (l ++ [x]) = inflightSum l + (x.length : Int) := by
  simp [inflightSum]

/-- Every atomic controller step preserves the bookkeeping invariant. -/
theorem step_preserves_bufferInv {s s' : GrblState}
    (h : Step s s') (hi : BufferInv s) : BufferInv s' := by
  cases h with
  | stepWrite data =>
      simpa [BufferInv, write] using hi
  | stepRealtime data =>
      unfold BufferInv realtime at *
      split <;> simpa using hi
  | stepSendRealtime t' ev h =>
      unfold sendingRealtime at h
      cases hq : s.realtime_queue with
      | nil => rw [hq] at h; exact absurd h (by simp)
      | cons a l =>
          rw [hq] at h
          simp only [Option.some.injEq, Prod.mk.injEq] at h
          obtain ⟨h1, -⟩ := h
          subst h1
          simpa [BufferInv] using hi
  | stepSendLine t' ev h =>
      unfold sendingSingleLine at h
      cases hq : s.sending_queue with
      | nil => rw [hq] at h; exact absurd h (by simp)
      | cons a l =>
          rw [hq] at h
          simp only [Option.some.injEq, Prod.mk.injEq] at h
          obtain ⟨h1, -⟩ := h
          subst h1
          unfold BufferInv at *
          simp only []
          rw [inflightSum_append_one]
          simp [hi]
  | stepRecv t' resp o h =>
      unfold processResponse at h
      by_cases hr : resp = "ok"
      · rw [if_pos hr] at h
        cases hq : s.commands_in_device_buffer with
        | nil => rw [hq] at h; exact absurd h (by simp [popFirst])
        | cons a l =>
            rw [hq] at h
            simp only [popFirst, Except.ok.injEq, Prod.mk.injEq] at h
            obtain ⟨h1, -⟩ := h
            subst h1
            unfold BufferInv at *
            rw [hq, inflightSum_cons] at hi
            simp only []
            omega
      · rw [if_neg hr] at h
        simp only [Except.ok.injEq, Prod.mk.injEq] at h
        obtain ⟨h1, -⟩ := h
        subst h1
        exact hi

end Grbl

namespace Grbl

/-- C1: at every point in the controller's execution (every state
reachable through the atomic steps from the initial state),
`buffered_characters` equals the sum of the lengths of the entries of
`commands_in_device_buffer`; and immediately after a buffered-mode send
of a normal-queue line — which `_sending_buffered` performs only under
the guard `device_buffer_size > buffered_characters +
_length_of_next_line` — `buffered_characters` does not exceed
`device_buffer_size`. -/
theorem grbl_buffer_invariant :
    (∀ (size : Int) (s : GrblState), Reachable size s → BufferInv s)
    ∧ (∀ (t t' : GrblState) (line : String) (rest : List String) (ev : Event),
        t.sending_queue = line :: rest →
        t.buffered_characters + line.length < t.device_buffer_size →
        sendingSingleLine t = some (t', ev) →
        t'.buffered_characters ≤ t'.device_buffer_size) := by
  constructor
  · intro size s h
    unfold Reachable at h
    induction h with
    | refl => simp [BufferInv, initState, inflightSum]
    | tail _ hstep ih => exact step_preserves_bufferInv hstep ih
  · intro t t' line rest ev hq hguard hsend
    unfold sendingSingleLine at hsend
    rw [hq] at hsend
    simp only [Option.some.injEq, Prod.mk.injEq] at hsend
    obtain ⟨h1, -⟩ := hsend
    subst h1
    simp only []
    omega

/-- Witness for C1 at concrete inputs: the initial state with buffer size
127 satisfies the invariant, and a guarded send of `"G0"` (length 2) into
an empty device buffer of capacity 30 leaves the byte count at `2 ≤ 30`. -/
theorem grbl_buffer_invariant_witness :
    BufferInv (initState 127)
    ∧ (({ sending_queue := []
          realtime_queue := []
          commands_in_device_buffer := ["G0"]
          buffered_characters := 2
          device_buffer_size := 30 } : GrblState).buffered_characters
        ≤ ({ sending_queue := []
             realtime_queue := []
             commands_in_device_buffer := ["G0"]
             buffered_characters := 2
             device_buffer_size := 30 } : GrblState).device_buffer_size) := by
  constructor
  · exact grbl_buffer_invariant.1 127 (initState 127) Relation.ReflTransGen.refl
  · exact grbl_buffer_invariant.2
      { sending_queue := ["G0"]
        realtime_queue := []
        commands_in_device_buffer := []
        buffered_characters := 0
        device_buffer_size := 30 }
      _ "G0" [] (Event.sendLine "G0") rfl (by decide) (by decide)

end Grbl

namespace Grbl

/-- Closed form of the realtime drain loop: it sends every entry of the
realtime queue, in order, and empties the queue. -/
theorem drainRealtime_spec :
    ∀ (q : List String) (s : GrblState), s.realtime_queue = q →
      drainRealtime s =
        ({ s with realtime_queue := [] }, q.map Event.sendRealtime) := by
  intro q
  induction q with
  | nil =>
      intro s h
      rw [drainRealtime.eq_def]
      split
      · next heq => simp only [List.map_nil]; rw [← heq]
      · next line rest heq => rw [h] at heq; exact absurd heq (by simp)
  | cons x xs ih =>
      intro s h
      rw [drainRealtime.eq_def]
      split
      · next heq => rw [h] at heq; exact absurd heq (by simp)
      · next line rest heq =>
          rw [h] at heq
          injection heq with h1 h2
          subst h1
          subst h2
          simp only [ih { s with realtime_queue := xs } rfl, List.map_cons]

end Grbl

namespace Grbl

/-- C2: a `realtime(data)` call whose data contains the cancel control
code atomically (in one step, under the lock) empties the normal sending
queue and appends `data` to the realtime queue; the cancel command itself
is still sent (the realtime drain emits it); and no sender step can send
a normal-queue line afterwards regardless of timing — sending from an
empty normal queue is impossible, and every sender-side step (realtime
send, response processing) leaves an empty normal queue empty, so only a
new `write` can make one sendable. -/
theorem grbl_realtime_cancel :
    ∀ (s : GrblState) (data : String), containsCancel data = true →
      (realtime s data).sending_queue = []
      ∧ (realtime s data).realtime_queue = s.realtime_queue ++ [data]
      ∧ (drainRealtime (realtime s data)).2
          = (s.realtime_queue ++ [data]).map Event.sendRealtime
      ∧ (∀ t : GrblState, t.sending_queue = [] → sendingSingleLine t = none)
      ∧ (∀ (t t' : GrblState) (ev : Event), t.sending_queue = [] →
          sendingRealtime t = some (t', ev) → t'.sending_queue = [])
      ∧ (∀ (t t' : GrblState) (resp : String) (o : RecvOutcome),
          t.sending_queue = [] →
          processResponse t resp = Except.ok (t', o) →
          t'.sending_queue = []) := by
  intro s data h
  have hq : (realtime s data).realtime_queue = s.realtime_queue ++ [data] := by
    simp [realtime, h]
  refine ⟨by simp [realtime, h], hq, ?_, ?_, ?_, ?_⟩
  · rw [drainRealtime_spec _ _ hq]
  · intro t ht
    unfold sendingSingleLine
    rw [ht]
  · intro t t' ev ht hsend
    unfold sendingRealtime at hsend
    cases hrt : t.realtime_queue with
    | nil => rw [hrt] at hsend; exact absurd hsend (by simp)
    | cons a l =>
        rw [hrt] at hsend
        simp only [Option.some.injEq, Prod.mk.injEq] at hsend
        obtain ⟨h1, -⟩ := hsend
        subst h1
        exact ht
  · intro t t' resp o ht hp
    unfold processResponse at hp
    by_cases hr : resp = "ok"
    · rw [if_pos hr] at hp
      cases hb : t.commands_in_device_buffer with
      | nil => rw [hb] at hp; exact absurd hp (by simp [popFirst])
      | cons a l =>
          rw [hb] at hp
          simp only [popFirst, Except.ok.injEq, Prod.mk.injEq] at hp
          obtain ⟨h1, -⟩ := hp
          subst h1
          exact ht
    · rw [if_neg hr] at hp
      simp only [Except.ok.injEq, Prod.mk.injEq] at hp
      obtain ⟨h1, -⟩ := hp
      subst h1
      exact ht

/-- Witness for C2 at a concrete input: two queued normal lines, a
realtime cancel `"\x18"`; the normal queue ends empty, the cancel is
appended and sent by the drain, and a normal-line send from the resulting
state is impossible. -/
theorem grbl_realtime_cancel_witness :
    (realtime
        { sending_queue := ["G1 X10", "G1 X20"]
          realtime_queue := []
          commands_in_device_buffer := []
          buffered_characters := 0
          device_buffer_size := 30 } "\x18").sending_queue = []
    ∧ (realtime
        { sending_queue := ["G1 X10", "G1 X20"]
          realtime_queue := []
          commands_in_device_buffer := []
          buffered_characters := 0
          device_buffer_size := 30 } "\x18").realtime_queue = ["\x18"]
    ∧ (drainRealtime (realtime
        { sending_queue := ["G1 X10", "G1 X20"]
          realtime_queue := []
          commands_in_device_buffer := []
          buffered_characters := 0
          device_buffer_size := 30 } "\x18")).2
        = [Event.sendRealtime "\x18"]
    ∧ sendingSingleLine (realtime
        { sending_queue := ["G1 X10", "G1 X20"]
          realtime_queue := []
          commands_in_device_buffer := []
          buffered_characters := 0
          device_buffer_size := 30 } "\x18") = none := by
  have h := grbl_realtime_cancel
    { sending_queue := ["G1 X10", "G1 X20"]
      realtime_queue := []
      commands_in_device_buffer := []
      buffered_characters := 0
      device_buffer_size := 30 } "\x18" (by decide)
  exact ⟨h.1, h.2.1, h.2.2.1, h.2.2.2.1 _ h.1⟩

end Grbl

namespace Grbl

/-- C3: receiving the response line `"ok"` while the in-flight queue is
empty makes `_recv_response` raise `ConnectionAbortedError` (the fatal
protocol-desync path, which nothing in the sender catches, so the sender
task terminates), and the `IndexError` from the out-of-range `pop(0)` is
caught and never escapes: the raised error is `connectionAborted`, not
`indexError`. -/
theorem grbl_desync_detection :
    ∀ (s : GrblState) (inputs : List String),
      s.commands_in_device_buffer = [] →
      processResponse s "ok" = Except.error GrblError.connectionAborted
      ∧ processResponse s "ok" ≠ Except.error GrblError.indexError
      ∧ recvResponse s ("ok" :: inputs)
          = some (Except.error GrblError.connectionAborted) := by
  intro s inputs h
  have h1 : processResponse s "ok" = Except.error GrblError.connectionAborted := by
    unfold processResponse
    rw [if_pos rfl, h]
    rfl
  refine ⟨h1, by simp [h1], ?_⟩
  unfold recvResponse readResponse
  rw [if_neg (by decide)]
  simp [h1, Except.map]

/-- Witness for C3: the freshly initialised controller (empty in-flight
queue) fed the response `"ok"`. -/
theorem grbl_desync_detection_witness :
    processResponse (initState 30) "ok"
        = Except.error GrblError.connectionAborted
    ∧ processResponse (initState 30) "ok"
        ≠ Except.error GrblError.indexError
    ∧ recvResponse (initState 30) ["ok", "$$"]
        = some (Except.error GrblError.connectionAborted) :=
  grbl_desync_detection (initState 30) ["$$"] rfl

end Grbl

namespace Grbl

theorem altOk_rt_drain :
    ∀ (q : List String) (b : Bool) (tail : List Event),
      altOk b (q.map Event.sendRealtime ++ tail) = altOk b tail := by
  intro q
  induction q with
  | nil => intro b tail; rfl
  | cons x xs ih => intro b tail; simpa [altOk] using ih b tail

/-- The three possible shapes of one sync-mode sender iteration: nothing
to send (realtime drain only), one send then a blocked read, or one send
followed by exactly one received response. -/
theorem sendingSync_shape (s : GrblState) (inputs : List String) :
    (s.sending_queue = []
      ∧ sendingSync s inputs
          = (s.realtime_queue.map Event.sendRealtime,
              SenderOutcome.done { s with realtime_queue := [] } inputs))
    ∨ (∃ line s2, (sendingSync s inputs).1
          = s.realtime_queue.map Event.sendRealtime ++ [Event.sendLine line]
        ∧ (sendingSync s inputs).2 = SenderOutcome.blocked s2)
    ∨ (∃ line resp, (sendingSync s inputs).1
          = s.realtime_queue.map Event.sendRealtime
              ++ [Event.sendLine line, Event.recv resp]) := by
  unfold sendingSync
  rw [drainRealtime_spec s.realtime_queue s rfl]
  simp only []
  cases hq : s.sending_queue with
  | nil => exact Or.inl ⟨rfl, rfl⟩
  | cons line rest =>
      cases hr : readResponse inputs with
      | none =>
          exact Or.inr (Or.inl ⟨line,
            { s with
              realtime_queue := []
              sending_queue := rest
              commands_in_device_buffer := s.commands_in_device_buffer ++ [line]
              buffered_characters := s.buffered_characters + line.length },
            by simp, by simp⟩)
      | some p =>
          obtain ⟨resp, restIn⟩ := p
          cases hp : processResponse
              { s with
                realtime_queue := []
                sending_queue := rest
                commands_in_device_buffer :=
                  s.commands_in_device_buffer ++ [line]
                buffered_characters :=
                  s.buffered_characters + line.length } resp with
          | error e => exact Or.inr (Or.inr ⟨line, resp, by simp [hp]⟩)
          | ok x => exact Or.inr (Or.inr ⟨line, resp, by simp [hp]⟩)

/-- C6: in sync mode the sender first drains the realtime queue fully
(the trace begins with one realtime send per queued entry, no
acknowledgment waits among them); then, if the normal queue is non-empty,
it sends exactly one line and reads exactly one response before doing
anything else; and over any interleaving of writes, realtime writes and
sender iterations, the transport trace never contains two normal-queue
sends without an intervening receive. -/
theorem sync_mode_alternation :
    (∀ (s : GrblState) (inputs : List String),
      (s.sending_queue = [] →
        sendingSync s inputs
          = (s.realtime_queue.map Event.sendRealtime,
              SenderOutcome.done { s with realtime_queue := [] } inputs))
      ∧ (∀ line rest, s.sending_queue = line :: rest →
          ∃ tail, (sendingSync s inputs).1
              = s.realtime_queue.map Event.sendRealtime
                  ++ Event.sendLine line :: tail
            ∧ (tail = [] ∨ ∃ resp, tail = [Event.recv resp])))
    ∧ (∀ (s : GrblState) (acts : List Act),
        altOk false (runSync s acts) = true) := by
  constructor
  · intro s inputs
    constructor
    · intro hq
      unfold sendingSync
      rw [drainRealtime_spec s.realtime_queue s rfl]
      simp [hq]
    · intro line rest hq
      unfold sendingSync
      rw [drainRealtime_spec s.realtime_queue s rfl]
      simp only [hq]
      cases hr : readResponse inputs with
      | none => exact ⟨[], by simp⟩
      | some p =>
          obtain ⟨resp, restIn⟩ := p
          refine ⟨[Event.recv resp], ?_, Or.inr ⟨resp, rfl⟩⟩
          cases hp : processResponse
              { s with
                realtime_queue := []
                sending_queue := rest
                commands_in_device_buffer :=
                  s.commands_in_device_buffer ++ [line]
                buffered_characters :=
                  s.buffered_characters + line.length } resp with
          | error e => simp [hp]
          | ok x => simp [hp]
  · intro s acts
    induction acts generalizing s with
    | nil => rfl
    | cons a rest ih =>
        cases a with
        | actWrite d => exact ih (write s d)
        | actRealtime d => exact ih (realtime s d)
        | actIter inputs =>
            rcases sendingSync_shape s inputs with h | ⟨line, s2, h1, h2⟩ |
                ⟨line, resp, h1⟩
            · simp only [runSync, h.2]
              rw [altOk_rt_drain]
              exact ih _
            · simp only [runSync]
              rw [h2, h1, altOk_rt_drain]
              rfl
            · simp only [runSync]
              cases ho : (sendingSync s inputs).2 with
              | done s' remIn =>
                  rw [h1]
                  dsimp only
                  rw [List.append_assoc, altOk_rt_drain]
                  simpa [altOk] using ih s'
              | blocked s2 =>
                  rw [h1]
                  dsimp only
                  rw [altOk_rt_drain]
                  rfl
              | fatal e s2 =>
                  rw [h1]
                  dsimp only
                  rw [altOk_rt_drain]
                  rfl

/-- Witness for C6 at a concrete input: a controller with one realtime
entry and two queued lines; one sync iteration sends the realtime entry,
then exactly one line, then reads exactly one `"ok"`; and a concrete
two-iteration run alternates correctly. -/
theorem sync_mode_alternation_witness :
    sendingSync
        { sending_queue := []
          realtime_queue := ["?"]
          commands_in_device_buffer := []
          buffered_characters := 0
          device_buffer_size := 30 } ["ok"]
      = ([Event.sendRealtime "?"],
          SenderOutcome.done
            { sending_queue := []
              realtime_queue := []
              commands_in_device_buffer := []
              buffered_characters := 0
              device_buffer_size := 30 } ["ok"])
    ∧ (∃ tail, (sendingSync
        { sending_queue := ["G0 X1", "G0 X2"]
          realtime_queue := ["?"]
          commands_in_device_buffer := []
          buffered_characters := 0
          device_buffer_size := 30 } ["ok"]).1
        = [Event.sendRealtime "?"] ++ Event.sendLine "G0 X1" :: tail
      ∧ (tail = [] ∨ ∃ resp, tail = [Event.recv resp]))
    ∧ altOk false (runSync
        { sending_queue := []
          realtime_queue := []
          commands_in_device_buffer := []
          buffered_characters := 0
          device_buffer_size := 30 }
        [Act.actWrite "G0 X1", Act.actWrite "G0 X2",
          Act.actIter ["ok"], Act.actIter ["ok"]]) = true := by
  refine ⟨?_, ?_, ?_⟩
  · exact (sync_mode_alternation.1
      { sending_queue := []
        realtime_queue := ["?"]
        commands_in_device_buffer := []
        buffered_characters := 0
        device_buffer_size := 30 } ["ok"]).1 rfl
  · exact (sync_mode_alternation.1
      { sending_queue := ["G0 X1", "G0 X2"]
        realtime_queue := ["?"]
        commands_in_device_buffer := []
        buffered_characters := 0
        device_buffer_size := 30 } ["ok"]).2 "G0 X1" ["G0 X2"] rfl
  · exact sync_mode_alternation.2
      { sending_queue := []
        realtime_queue := []
        commands_in_device_buffer := []
        buffered_characters := 0
        device_buffer_size := 30 }
      [Act.actWrite "G0 X1", Act.actWrite "G0 X2",
        Act.actIter ["ok"], Act.actIter ["ok"]]

end Grbl

namespace Grbl

theorem sendWhileFits_nil {s : GrblState} (h : s.sending_queue = []) :
    sendWhileFits s = (s, []) := by
  rw [sendWhileFits.eq_def]
  split
  · rfl
  · next line rest heq => rw [h] at heq; exact absurd heq (by simp)

/-- The buffered send loop stops without sending when the next line would
not leave the byte count strictly below the capacity (the guard is a
strict inequality: an exact fit is not sent). -/
theorem sendWhileFits_stop {s : GrblState} {line : String}
    {rest : List String} (h : s.sending_queue = line :: rest)
    (hg : s.device_buffer_size ≤ s.buffered_characters + line.length) :
    sendWhileFits s = (s, []) := by
  rw [sendWhileFits.eq_def]
  split
  · rfl
  · next line' rest' heq =>
      rw [h] at heq
      injection heq with h1 h2
      subst h1
      subst h2
      rw [if_neg (by omega)]

/-- The buffered send loop sends the head line exactly when the guard
`device_buffer_size > buffered_characters + len(line)` holds, and
continues on the updated state. -/
theorem sendWhileFits_step {s : GrblState} {line : String}
    {rest : List String} (h : s.sending_queue = line :: rest)
    (hg : s.buffered_characters + line.length < s.device_buffer_size) :
    ∃ s', sendingSingleLine s = some (s', Event.sendLine line)
      ∧ sendWhileFits s
          = ((sendWhileFits s').1,
              Event.sendLine line :: (sendWhileFits s').2) := by
  refine ⟨{ s with
      sending_queue := rest
      commands_in_device_buffer := s.commands_in_device_buffer ++ [line]
      buffered_characters := s.buffered_characters + line.length }, ?_, ?_⟩
  · unfold sendingSingleLine
    rw [h]
  · rw [sendWhileFits.eq_def]
    split
    · next heq => rw [h] at heq; exact absurd heq (by simp)
    · next line' rest' heq =>
        rw [h] at heq
        injection heq with h1 h2
        subst h1
        subst h2
        rw [if_pos (by omega)]

/-- The acknowledgment drain loop, when it completes, has emptied the
in-flight queue, and every event it emits is a receive. -/
theorem drainAcks_done :
    ∀ (inputs : List String) (s : GrblState) (evs : List Event)
      (s' : GrblState) (rem : List String),
      drainAcks s inputs = (evs, SenderOutcome.done s' rem) →
      s'.commands_in_device_buffer = []
        ∧ ∀ e ∈ evs, ∃ r, e = Event.recv r := by
  have main : ∀ (n : Nat) (inputs : List String), inputs.length ≤ n →
      ∀ (s : GrblState) (evs : List Event) (s' : GrblState)
        (rem : List String),
        drainAcks s inputs = (evs, SenderOutcome.done s' rem) →
        s'.commands_in_device_buffer = []
          ∧ ∀ e ∈ evs, ∃ r, e = Event.recv r := by
    intro n
    induction n with
    | zero =>
        intro inputs hlen s evs s' rem h
        rw [drainAcks.eq_def] at h
        split at h
        · next hbuf =>
            injection h with h1 h2
            injection h2 with h3 h4
            subst h1
            subst h3
            exact ⟨hbuf, by simp⟩
        · next hbuf =>
            have : inputs = [] := List.length_eq_zero.mp (Nat.le_zero.mp hlen)
            subst this
            simp only [readResponse] at h
            exact absurd h (by simp)
    | succ n ihn =>
        intro inputs hlen s evs s' rem h
        rw [drainAcks.eq_def] at h
        split at h
        · next hbuf =>
            injection h with h1 h2
            injection h2 with h3 h4
            subst h1
            subst h3
            exact ⟨hbuf, by simp⟩
        · next hbuf =>
            split at h
            · exact absurd h (by simp)
            · next resp restIn hread =>
                split at h
                · exact absurd h (by simp)
                · next s2 o hproc =>
                    injection h with h1 h2
                    have hlt := readResponse_length hread
                    have hrec : drainAcks s2 restIn
                        = ((drainAcks s2 restIn).1, SenderOutcome.done s' rem) := by
                      rw [← h2]
                    obtain ⟨hc, hr⟩ :=
                      ihn restIn (by omega) s2 (drainAcks s2 restIn).1 s' rem hrec
                    refine ⟨hc, ?_⟩
                    intro e he
                    rw [← h1] at he
                    rcases List.mem_cons.mp he with h | h
                    · exact ⟨resp, h⟩
                    · exact hr e h
  intro inputs
  exact main inputs.length inputs (Nat.le_refl _)

end Grbl

namespace Grbl

/-- C7 counterexample: with device capacity 5, an empty device buffer and
next line `"abcde"` of length 5 — so that
`buffered_characters + len(next line) = device_buffer_size` exactly — the
buffered-mode iteration sends nothing: the guard
`device_buffer_size > buffered_characters + _length_of_next_line` is
strict, so the claim that a line is still sent on an exact fit is false;
the line stays queued. -/
theorem buffered_exact_fit_counterexample :
    ({ sending_queue := ["abcde"]
       realtime_queue := []
       commands_in_device_buffer := []
       buffered_characters := 0
       device_buffer_size := 5 } : GrblState).buffered_characters
        + lengthOfNextLine
            { sending_queue := ["abcde"]
              realtime_queue := []
              commands_in_device_buffer := []
              buffered_characters := 0
              device_buffer_size := 5 }
      = ({ sending_queue := ["abcde"]
           realtime_queue := []
           commands_in_device_buffer := []
           buffered_characters := 0
           device_buffer_size := 5 } : GrblState).device_buffer_size
    ∧ (sendingBuffered
        { sending_queue := ["abcde"]
          realtime_queue := []
          commands_in_device_buffer := []
          buffered_characters := 0
          device_buffer_size := 5 } []).1 = []
    ∧ (sendingBuffered
        { sending_queue := ["abcde"]
          realtime_queue := []
          commands_in_device_buffer := []
          buffered_characters := 0
          device_buffer_size := 5 } []).2
      = SenderOutcome.done
          { sending_queue := ["abcde"]
            realtime_queue := []
            commands_in_device_buffer := []
            buffered_characters := 0
            device_buffer_size := 5 } [] := by
  have h1 : drainRealtime
      ({ sending_queue := ["abcde"]
         realtime_queue := []
         commands_in_device_buffer := []
         buffered_characters := 0
         device_buffer_size := 5 } : GrblState)
      = ({ sending_queue := ["abcde"]
           realtime_queue := []
           commands_in_device_buffer := []
           buffered_characters := 0
           device_buffer_size := 5 }, []) :=
    drainRealtime_spec [] _ rfl
  have h2 : sendWhileFits
      ({ sending_queue := ["abcde"]
         realtime_queue := []
         commands_in_device_buffer := []
         buffered_characters := 0
         device_buffer_size := 5 } : GrblState)
      = ({ sending_queue := ["abcde"]
           realtime_queue := []
           commands_in_device_buffer := []
           buffered_characters := 0
           device_buffer_size := 5 }, []) :=
    sendWhileFits_stop rfl (by decide)
  have h3 : drainAcks
      ({ sending_queue := ["abcde"]
         realtime_queue := []
         commands_in_device_buffer := []
         buffered_characters := 0
         device_buffer_size := 5 } : GrblState) []
      = ([], SenderOutcome.done
          { sending_queue := ["abcde"]
            realtime_queue := []
            commands_in_device_buffer := []
            buffered_characters := 0
            device_buffer_size := 5 } []) := by
    rw [drainAcks.eq_def]
  refine ⟨by decide, ?_, ?_⟩ <;>
    simp [sendingBuffered, h1, h2, h3]

end Grbl

namespace Grbl

/-- C7 (amended): in buffered mode each sender iteration first drains the
realtime queue fully, then repeatedly dequeues and sends the next
normal-queue line as long as the in-flight byte count plus the next
line's length is strictly less than the device buffer capacity — when
the sum equals or exceeds the capacity the line is not sent — and then
drains pending acknowledgments, one receive per in-flight entry, until
the in-flight queue is empty. -/
theorem buffered_mode_pacing :
    ∀ (s : GrblState) (inputs : List String),
      (sendingBuffered s inputs).1
          = s.realtime_queue.map Event.sendRealtime
            ++ (sendWhileFits { s with realtime_queue := [] }).2
            ++ (drainAcks (sendWhileFits { s with realtime_queue := [] }).1
                  inputs).1
      ∧ (∀ (t : GrblState) (line : String) (rest : List String),
          t.sending_queue = line :: rest →
          (t.buffered_characters + line.length < t.device_buffer_size →
            ∃ t', sendingSingleLine t = some (t', Event.sendLine line)
              ∧ sendWhileFits t
                  = ((sendWhileFits t').1,
                      Event.sendLine line :: (sendWhileFits t').2))
          ∧ (t.device_buffer_size ≤ t.buffered_characters + line.length →
              sendWhileFits t = (t, [])))
      ∧ (∀ (t : GrblState) (ins : List String) (evs : List Event)
          (t' : GrblState) (rem : List String),
          drainAcks t ins = (evs, SenderOutcome.done t' rem) →
          t'.commands_in_device_buffer = []
            ∧ ∀ e ∈ evs, ∃ r, e = Event.recv r) := by
  intro s inputs
  refine ⟨?_, ?_, ?_⟩
  · unfold sendingBuffered
    rw [drainRealtime_spec s.realtime_queue s rfl]
  · intro t line rest hq
    exact ⟨fun hg => sendWhileFits_step hq hg,
      fun hg => sendWhileFits_stop hq hg⟩
  · intro t ins evs t' rem h
    exact drainAcks_done ins t evs t' rem h

/-- Witness for C7 at concrete inputs: a line of length 2 with capacity 5
is sent (strict fit), the exact-fit line of length 5 is not, and a
one-entry acknowledgment drain fed `["ok"]` finishes with an empty
in-flight queue. -/
theorem buffered_mode_pacing_witness :
    (∃ t', sendingSingleLine
          { sending_queue := ["ab"]
            realtime_queue := []
            commands_in_device_buffer := []
            buffered_characters := 0
            device_buffer_size := 5 }
        = some (t', Event.sendLine "ab")
      ∧ sendWhileFits
            { sending_queue := ["ab"]
              realtime_queue := []
              commands_in_device_buffer := []
              buffered_characters := 0
              device_buffer_size := 5 }
          = ((sendWhileFits t').1, Event.sendLine "ab" :: (sendWhileFits t').2))
    ∧ sendWhileFits
          { sending_queue := ["abcde"]
            realtime_queue := []
            commands_in_device_buffer := []
            buffered_characters := 0
            device_buffer_size := 5 }
        = ({ sending_queue := ["abcde"]
             realtime_queue := []
             commands_in_device_buffer := []
             buffered_characters := 0
             device_buffer_size := 5 }, [])
    ∧ ({ sending_queue := []
         realtime_queue := []
         commands_in_device_buffer := []
         buffered_characters := 0
         device_buffer_size := 5 } : GrblState).commands_in_device_buffer = [] := by
  have hd : drainAcks
      ({ sending_queue := []
         realtime_queue := []
         commands_in_device_buffer := ["ab"]
         buffered_characters := 2
         device_buffer_size := 5 } : GrblState) ["ok"]
      = ([Event.recv "ok"], SenderOutcome.done
          { sending_queue := []
            realtime_queue := []
            commands_in_device_buffer := []
            buffered_characters := 0
            device_buffer_size := 5 } []) := by
    have hr : readResponse ["ok"] = some ("ok", []) := by decide
    have hp : processResponse
        ({ sending_queue := []
           realtime_queue := []
           commands_in_device_buffer := ["ab"]
           buffered_characters := 2
           device_buffer_size := 5 } : GrblState) "ok"
        = Except.ok
            ({ sending_queue := []
               realtime_queue := []
               commands_in_device_buffer := []
               buffered_characters := 0
               device_buffer_size := 5 },
              RecvOutcome.popped "ab") := rfl
    rw [drainAcks.eq_def]
    dsimp only
    split
    · next h => rw [hr] at h; exact absurd h (by simp)
    · next resp rest h =>
        rw [hr] at h
        injection h with h
        injection h with h1 h2
        subst h1
        subst h2
        rw [hp]
        dsimp only
        rw [drainAcks.eq_def]
  refine ⟨?_, ?_, ?_⟩
  · exact ((buffered_mode_pacing
      { sending_queue := ["ab"]
        realtime_queue := []
        commands_in_device_buffer := []
        buffered_characters := 0
        device_buffer_size := 5 } []).2.1
      { sending_queue := ["ab"]
        realtime_queue := []
        commands_in_device_buffer := []
        buffered_characters := 0
        device_buffer_size := 5 } "ab" [] rfl).1 (by decide)
  · exact ((buffered_mode_pacing
      { sending_queue := ["abcde"]
        realtime_queue := []
        commands_in_device_buffer := []
        buffered_characters := 0
        device_buffer_size := 5 } []).2.1
      { sending_queue := ["abcde"]
        realtime_queue := []
        commands_in_device_buffer := []
        buffered_characters := 0
        device_buffer_size := 5 } "abcde" [] rfl).2 (by decide)
  · exact ((buffered_mode_pacing
      { sending_queue := []
        realtime_queue := []
        commands_in_device_buffer := []
        buffered_characters := 0
        device_buffer_size := 5 } []).2.2
      { sending_queue := []
        realtime_queue := []
        commands_in_device_buffer := ["ab"]
        buffered_characters := 2
        device_buffer_size := 5 } ["ok"] [Event.recv "ok"]
      { sending_queue := []
        realtime_queue := []
        commands_in_device_buffer := []
        buffered_characters := 0
        device_buffer_size := 5 } [] hd).1

end Grbl

namespace Cut

theorem wireFrom_length (n : Nat) (c : Bool) :
    ∀ (l : List RawCut) (i : Nat), (wireFrom n c i l).length = l.length := by
  intro l
  induction l with
  | nil => intro i; rfl
  | cons x xs ih => intro i; simp [wireFrom, ih]

theorem wireFrom_first_count_pos (n : Nat) (c : Bool) :
    ∀ (l : List RawCut) (i : Nat), 1 ≤ i →
      (wireFrom n c i l).countP (fun o => o.first) = 0 := by
  intro l
  induction l with
  | nil => intro i _; rfl
  | cons x xs ih =>
      intro i hi
      have hx : (wireObj n c i x).first = false := by
        simp [wireObj]
        omega
      simp [wireFrom, List.countP_cons, hx, ih (i + 1) (by omega)]

theorem wire_first_count (cuts : List RawCut) (c : Bool) (h : cuts ≠ []) :
    (wire cuts c).countP (fun o => o.first) = 1 := by
  cases cuts with
  | nil => exact absurd rfl h
  | cons x xs =>
      have hx : (wireObj xs.length.succ c 0 x).first = true := by
        simp [wireObj]
      simp [wire, wireFrom, List.countP_cons, hx,
        wireFrom_first_count_pos xs.length.succ c xs 1 (by omega)]

theorem wireFrom_last_count (n : Nat) (c : Bool) :
    ∀ (l : List RawCut) (i : Nat),
      (wireFrom n c i l).countP (fun o => o.last)
        = if i < n ∧ n ≤ i + l.length then 1 else 0 := by
  intro l
  induction l with
  | nil =>
      intro i
      simp only [wireFrom, List.countP_nil, List.length_nil]
      rw [if_neg (by omega)]
  | cons x xs ih =>
      intro i
      by_cases hx : i + 1 = n
      · have h1 : (wireObj n c i x).last = true := by simp [wireObj, hx]
        simp [wireFrom, List.countP_cons, h1, ih (i + 1)]
        split_ifs <;> omega
      · have h1 : (wireObj n c i x).last = false := by
          simp [wireObj]
          omega
        simp [wireFrom, List.countP_cons, h1, ih (i + 1)]
        split_ifs <;> omega

theorem wire_last_count (cuts : List RawCut) (c : Bool) (h : cuts ≠ []) :
    (wire cuts c).countP (fun o => o.last) = 1 := by
  have hlen : 1 ≤ cuts.length := by
    cases cuts with
    | nil => exact absurd rfl h
    | cons x xs => simp
  rw [wire, wireFrom_last_count]
  rw [if_pos ⟨by omega, by omega⟩]

theorem wireFrom_get (n : Nat) (c : Bool) :
    ∀ (l : List RawCut) (i k : Nat) (h : k < l.length),
      (wireFrom n c i l).get
          ⟨k, by rw [wireFrom_length]; exact h⟩
        = wireObj n c (i + k) (l.get ⟨k, h⟩) := by
  intro l
  induction l with
  | nil => intro i k h; exact absurd h (by simp)
  | cons x xs ih =>
      intro i k h
      cases k with
      | zero => rfl
      | succ k =>
          have hk : k < xs.length := by simpa using h
          have := ih (i + 1) k hk
          simpa [wireFrom, Nat.add_assoc, Nat.add_comm 1 k] using this

end Cut

namespace Cut

theorem wireFrom_head? (n : Nat) (c : Bool) (x : RawCut)
    (xs : List RawCut) (i : Nat) :
    (wireFrom n c i (x :: xs)).head? = some (wireObj n c i x) := rfl

theorem wireFrom_getLast? (n : Nat) (c : Bool) :
    ∀ (xs : List RawCut) (x : RawCut) (i : Nat),
      (wireFrom n c i (x :: xs)).getLast?
        = ((x :: xs).getLast?).map fun r => wireObj n c (i + xs.length) r := by
  intro xs
  induction xs with
  | nil => intro x i; simp [wireFrom]
  | cons y ys ih =>
      intro x i
      have h1 : wireFrom n c i (x :: y :: ys)
          = wireObj n c i x :: wireObj n c (i + 1) y
              :: wireFrom n c (i + 2) ys := rfl
      rw [h1, List.getLast?_cons_cons]
      have h2 : wireObj n c (i + 1) y :: wireFrom n c (i + 2) ys
          = wireFrom n c (i + 1) (y :: ys) := rfl
      rw [h2, ih y (i + 1), List.getLast?_cons_cons]
      have h3 : i + 1 + ys.length = i + (y :: ys).length := by
        simp only [List.length_cons]
        omega
      rw [h3]

/-- The wiring loop links the final member's `next` back to index 0 and
the first member's `previous` to the final index, for any non-empty
group and any value of the `closed` flag. -/
theorem wire_links (cuts : List RawCut) (c : Bool) (h : cuts ≠ []) :
    ((wire cuts c).getLast?).map (fun o => o.next) = some 0
    ∧ ((wire cuts c).head?).map (fun o => o.previous)
        = some ((wire cuts c).length - 1) := by
  cases cuts with
  | nil => exact absurd rfl h
  | cons x xs =>
      have hlen : (wire (x :: xs) c).length = xs.length + 1 := by
        unfold wire
        rw [wireFrom_length]
        rfl
      constructor
      · rw [wire, wireFrom_getLast? (x :: xs).length c xs x 0]
        have hl : ∃ r, (x :: xs).getLast? = some r :=
          ⟨(x :: xs).getLast (by simp), List.getLast?_eq_getLast _ _⟩
        obtain ⟨r, hr⟩ := hl
        rw [hr]
        simp [wireObj]
      · rw [wire, wireFrom_head?, wireFrom_length]
        simp [wireObj]

end Cut

namespace Cut

/-- C4: every non-empty CutGroup produced by `as_cutobjects` has exactly
one member with `first = True` and exactly one with `last = True` (the
same object when the group has one member), and when the group's
`closed` flag is true the final member's `next` points at the first
member (index 0) and the first member's `previous` points at the final
member (index `n - 1`). -/
theorem cutgroup_first_last_links :
    ∀ (sp : Subpath) (d : Int) (g : List CutObject),
      g = (asCutGroup sp d).1 → g ≠ [] →
      g.countP (fun o => o.first) = 1
      ∧ g.countP (fun o => o.last) = 1
      ∧ (g.length = 1 → ∃ o, g = [o] ∧ o.first = true ∧ o.last = true)
      ∧ ((asCutGroup sp d).2 = true →
          (g.getLast?).map (fun o => o.next) = some 0
          ∧ (g.head?).map (fun o => o.previous) = some (g.length - 1)) := by
  intro sp d g hg hne
  have hcuts : buildCuts sp.segs ≠ [] := by
    intro hnil
    apply hne
    rw [hg]
    simp [asCutGroup, wire, hnil, wireFrom]
  have h1 : g.countP (fun o => o.first) = 1 := by
    rw [hg]
    exact wire_first_count _ _ hcuts
  have h2 : g.countP (fun o => o.last) = 1 := by
    rw [hg]
    exact wire_last_count _ _ hcuts
  refine ⟨h1, h2, ?_, ?_⟩
  · intro hlen
    obtain ⟨o, ho⟩ := List.length_eq_one.mp hlen
    refine ⟨o, ho, ?_, ?_⟩
    · rw [ho] at h1
      simpa [List.countP_cons] using h1
    · rw [ho] at h2
      simpa [List.countP_cons] using h2
  · intro _
    rw [hg]
    exact wire_links (buildCuts sp.segs) (subpathClosed sp d) hcuts

/-- Witness for C4: a two-line contour returning to its start point
(endpoint distance 0 ≤ 15, so classified closed): its group of two cuts
has exactly one `first`, exactly one `last`, and the wraparound links to
indices 0 and 1. -/
theorem cutgroup_first_last_links_witness :
    ((asCutGroup
        { segs := [Seg.line (0, 0) (10, 0), Seg.line (10, 0) (0, 0)]
          zPoint := (0, 0)
          currentPoint := (0, 0) } 15).1.countP (fun o => o.first) = 1)
    ∧ ((asCutGroup
        { segs := [Seg.line (0, 0) (10, 0), Seg.line (10, 0) (0, 0)]
          zPoint := (0, 0)
          currentPoint := (0, 0) } 15).1.countP (fun o => o.last) = 1)
    ∧ (((asCutGroup
        { segs := [Seg.line (0, 0) (10, 0), Seg.line (10, 0) (0, 0)]
          zPoint := (0, 0)
          currentPoint := (0, 0) } 15).1.getLast?).map (fun o => o.next)
        = some 0) := by
  have h := cutgroup_first_last_links
    { segs := [Seg.line (0, 0) (10, 0), Seg.line (10, 0) (0, 0)]
      zPoint := (0, 0)
      currentPoint := (0, 0) } 15
    (asCutGroup
      { segs := [Seg.line (0, 0) (10, 0), Seg.line (10, 0) (0, 0)]
        zPoint := (0, 0)
        currentPoint := (0, 0) } 15).1
    rfl (by decide)
  exact ⟨h.1, h.2.1, (h.2.2.2 (by decide)).1⟩

end Cut

namespace Cut

/-- C5 counterexample: an open two-line contour (endpoints 500 squared
units apart, tolerance 15, so `closed = False`) still gets the
wraparound links: the wiring loop of `as_cutobjects` assigns
`cut_obj.next = group[0]` on `IndexError` and
`cut_obj.previous = group[i-1]` (Python `group[-1]` for `i = 0`)
unconditionally, so the last member's `next` points at the first member
and the first member's `previous` points at the last member even though
the group is not closed — contradicting the claim that those links are
absent for open groups. -/
theorem open_group_wraparound_counterexample :
    (asCutGroup
        { segs := [Seg.line (0, 0) (10, 0), Seg.line (10, 0) (10, 20)]
          zPoint := (0, 0)
          currentPoint := (10, 20) } 15).2 = false
    ∧ (asCutGroup
        { segs := [Seg.line (0, 0) (10, 0), Seg.line (10, 0) (10, 20)]
          zPoint := (0, 0)
          currentPoint := (10, 20) } 15).1.length = 2
    ∧ ((asCutGroup
        { segs := [Seg.line (0, 0) (10, 0), Seg.line (10, 0) (10, 20)]
          zPoint := (0, 0)
          currentPoint := (10, 20) } 15).1.getLast?).map (fun o => o.next)
        = some 0
    ∧ ((asCutGroup
        { segs := [Seg.line (0, 0) (10, 0), Seg.line (10, 0) (10, 20)]
          zPoint := (0, 0)
          currentPoint := (10, 20) } 15).1.head?).map (fun o => o.previous)
        = some 1 := by decide

/-- C5 (amended): for every non-empty CutGroup produced by
`as_cutobjects` — whatever the value of its `closed` flag, in
particular when it is `False` — the wraparound adjacency links are
present: the last member's `next` points at the first member and the
first member's `previous` points at the last member, because the wiring
loop assigns them unconditionally. -/
theorem open_group_wraparound_present :
    ∀ (sp : Subpath) (d : Int) (g : List CutObject),
      g = (asCutGroup sp d).1 → g ≠ [] →
      (g.getLast?).map (fun o => o.next) = some 0
      ∧ (g.head?).map (fun o => o.previous) = some (g.length - 1) := by
  intro sp d g hg hne
  have hcuts : buildCuts sp.segs ≠ [] := by
    intro hnil
    apply hne
    rw [hg]
    simp [asCutGroup, wire, hnil, wireFrom]
  rw [hg]
  exact wire_links (buildCuts sp.segs) (subpathClosed sp d) hcuts

/-- Witness for C5 (amended) at the open two-line contour of the
counterexample: both wraparound links are present although the group is
classified open. -/
theorem open_group_wraparound_present_witness :
    (((asCutGroup
        { segs := [Seg.line (0, 0) (10, 0), Seg.line (10, 0) (10, 20)]
          zPoint := (0, 0)
          currentPoint := (10, 20) } 15).1.getLast?).map (fun o => o.next)
        = some 0)
    ∧ (((asCutGroup
        { segs := [Seg.line (0, 0) (10, 0), Seg.line (10, 0) (10, 20)]
          zPoint := (0, 0)
          currentPoint := (10, 20) } 15).1.head?).map (fun o => o.previous)
        = some ((asCutGroup
            { segs := [Seg.line (0, 0) (10, 0), Seg.line (10, 0) (10, 20)]
              zPoint := (0, 0)
              currentPoint := (10, 20) } 15).1.length - 1)) :=
  open_group_wraparound_present
    { segs := [Seg.line (0, 0) (10, 0), Seg.line (10, 0) (10, 20)]
      zPoint := (0, 0)
      currentPoint := (10, 20) } 15
    (asCutGroup
      { segs := [Seg.line (0, 0) (10, 0), Seg.line (10, 0) (10, 20)]
        zPoint := (0, 0)
        currentPoint := (10, 20) } 15).1
    rfl (by decide)

end Cut

namespace Cut

/-- C8: the `closed` flag computed by `as_cutobjects` for a subpath is
true exactly when the subpath ends with an explicit `Close` segment or
the Euclidean distance from its end point to its start point is at most
the `closed_distance` tolerance (the executable squared-distance
comparison agrees with the source's real-valued
`abs(sp.z_point - sp.current_point) <= closed_distance` for any
nonnegative tolerance); in particular a 4-line contour whose endpoints
are 10 apart is classified closed with tolerance 15, and one whose
endpoints are 20 apart is not. -/
theorem subpath_closed_classification :
    (∀ (sp : Subpath) (d : Int), 0 ≤ d →
        (subpathClosed sp d = true ↔ closedReal sp d))
    ∧ subpathClosed
        { segs := [Seg.line (0, 0) (30, 0), Seg.line (30, 0) (30, 30),
            Seg.line (30, 30) (0, 30), Seg.line (0, 30) (0, 10)]
          zPoint := (0, 0)
          currentPoint := (0, 10) } 15 = true
    ∧ subpathClosed
        { segs := [Seg.line (0, 0) (30, 0), Seg.line (30, 0) (30, 30),
            Seg.line (30, 30) (0, 30), Seg.line (0, 30) (0, 20)]
          zPoint := (0, 0)
          currentPoint := (0, 20) } 15 = false := by
  refine ⟨?_, by decide, by decide⟩
  intro sp d hd
  have key : (distSq sp.zPoint sp.currentPoint ≤ d * d)
      ↔ Real.sqrt ((distSq sp.zPoint sp.currentPoint : ℤ) : ℝ) ≤ (d : ℝ) := by
    rw [Real.sqrt_le_left (show (0 : ℝ) ≤ (d : ℝ) from by exact_mod_cast hd)]
    have hsq : ((d : ℝ)) ^ 2 = ((d * d : ℤ) : ℝ) := by
      push_cast
      ring
    rw [hsq, Int.cast_le]
  unfold subpathClosed closedReal
  simp only [Bool.or_eq_true, decide_eq_true_eq]
  exact or_congr Iff.rfl key

/-- Witness for C8: the equivalence between the squared-distance test
and the source's real-distance test instantiated at the distance-10
contour with tolerance 15, together with the two scenario
classifications. -/
theorem subpath_closed_classification_witness :
    (subpathClosed
        { segs := [Seg.line (0, 0) (30, 0), Seg.line (30, 0) (30, 30),
            Seg.line (30, 30) (0, 30), Seg.line (0, 30) (0, 10)]
          zPoint := (0, 0)
          currentPoint := (0, 10) } 15 = true
      ↔ closedReal
        { segs := [Seg.line (0, 0) (30, 0), Seg.line (30, 0) (30, 30),
            Seg.line (30, 30) (0, 30), Seg.line (0, 30) (0, 10)]
          zPoint := (0, 0)
          currentPoint := (0, 10) } 15)
    ∧ subpathClosed
        { segs := [Seg.line (0, 0) (30, 0), Seg.line (30, 0) (30, 30),
            Seg.line (30, 30) (0, 30), Seg.line (0, 30) (0, 10)]
          zPoint := (0, 0)
          currentPoint := (0, 10) } 15 = true :=
  ⟨subpath_closed_classification.1
      { segs := [Seg.line (0, 0) (30, 0), Seg.line (30, 0) (30, 30),
          Seg.line (30, 30) (0, 30), Seg.line (0, 30) (0, 10)]
        zPoint := (0, 0)
        currentPoint := (0, 10) } 15 (by decide),
    subpath_closed_classification.2.1⟩

end Cut

namespace Newly

theorem countMarks_append (a b : List ConEvent) :
    countMarks (a ++ b) = countMarks a + countMarks b := by
  simp [countMarks, List.countP_append]

theorem countMarks_marks (p : Nat → Point) (m : Nat) :
    countMarks ((List.range m).map fun j => ConEvent.mark (p j)) = m := by
  rw [countMarks]
  rw [List.countP_eq_length.mpr]
  · simp
  · intro a ha
    obtain ⟨j, -, hj⟩ := List.mem_map.mp ha
    rw [← hj]

/-- The interpolation loop with no abort request and no pause cycles:
it emits exactly one mark per remaining sample, in sample order, keeps
the machine mode, advances the poll counter once per sample, and does
not abort. -/
theorem curveLoop_run (env : DrvEnv) (pointAt : Nat → Point)
    (hP : ∀ j, env.pausePoll j = 0) :
    ∀ (m k : Nat) (c : ConState) (pi : Nat),
      (∀ j, j < m → env.abortPoll (pi + j) = false) →
      (curveLoop env pointAt k m c pi).1.events
          = c.events ++ ((List.range m).map fun j => ConEvent.mark (pointAt (k + j)))
      ∧ (curveLoop env pointAt k m c pi).1.mode = c.mode
      ∧ (curveLoop env pointAt k m c pi).2.1 = pi + m
      ∧ (curveLoop env pointAt k m c pi).2.2 = false := by
  intro m
  induction m with
  | zero => intro k c pi _; simp [curveLoop]
  | succ m ih =>
      intro k c pi hA
      have h0 : env.abortPoll pi = false := by
        have := hA 0 (by omega)
        simpa using this
      have hrange :
          ((List.range (m + 1)).map fun j => ConEvent.mark (pointAt (k + j)))
            = ConEvent.mark (pointAt k)
                :: ((List.range m).map fun j =>
                      ConEvent.mark (pointAt (k + 1 + j))) := by
        rw [List.range_succ_eq_map, List.map_cons, List.map_map]
        refine congrArg₂ _ (by rw [Nat.add_zero]) ?_
        refine List.map_congr_left ?_
        intro j _
        have harith : k + Nat.succ j = k + 1 + j := by omega
        simp [Function.comp, harith]
      have hstep := ih (k + 1) (conMark (conSleeps c (env.pausePoll pi)) (pointAt k))
          (pi + 1) (fun j hj => by
            have := hA (j + 1) (by omega)
            simpa [Nat.add_assoc, Nat.add_comm 1 j] using this)
      rw [curveLoop]
      rw [h0]
      simp only [Bool.false_eq_true, if_false]
      refine ⟨?_, ?_, ?_, ?_⟩
      · rw [hstep.1, hP, hrange]
        simp [conMark, conSleeps]
      · rw [hstep.2.1, hP]
        simp [conMark, conSleeps]
      · rw [hstep.2.2.1]
        omega
      · exact hstep.2.2.2

end Newly

namespace Newly

/-- The interpolation loop under an abort flag that turns true at poll
index `b` (and no pause cycles): starting at poll index `pi ≤ b` with
more than `b - pi` samples left, it emits exactly `b - pi` further
marks, then issues `con.abort()` and returns early with the machine in
rapid mode. -/
theorem curveLoop_abort (env : DrvEnv) (pointAt : Nat → Point) (b : Nat)
    (hA : ∀ j, env.abortPoll j = decide (b ≤ j))
    (hP : ∀ j, env.pausePoll j = 0) :
    ∀ (m k pi : Nat) (c : ConState), pi ≤ b → b < pi + m →
      countMarks (curveLoop env pointAt k m c pi).1.events
          = countMarks c.events + (b - pi)
      ∧ (curveLoop env pointAt k m c pi).1.mode = Mode.rapid
      ∧ (curveLoop env pointAt k m c pi).2.2 = true := by
  intro m
  induction m with
  | zero => intro k pi c h1 h2; omega
  | succ m ih =>
      intro k pi c h1 h2
      by_cases hpi : pi = b
      · have h0 : env.abortPoll pi = true := by
          rw [hA]
          simp [hpi]
        rw [curveLoop, h0]
        simp only [if_true]
        refine ⟨?_, by trivial, by trivial⟩
        rw [conAbort]
        simp only []
        rw [countMarks_append]
        have : countMarks [ConEvent.abortEv] = 0 := rfl
        rw [this]
        omega
      · have h0 : env.abortPoll pi = false := by
          rw [hA]
          simp
          omega
        rw [curveLoop, h0]
        simp only [Bool.false_eq_true, if_false]
        have hstep := ih (k + 1) (pi + 1)
            (conMark (conSleeps c (env.pausePoll pi)) (pointAt k))
            (by omega) (by omega)
        refine ⟨?_, hstep.2.1, hstep.2.2⟩
        rw [hstep.1, hP]
        have : countMarks (conMark (conSleeps c 0) (pointAt k)).events
            = countMarks c.events + 1 := by
          simp [conMark, conSleeps, countMarks_append, countMarks]
        rw [this]
        omega

end Newly

namespace Newly

/-- Unfolding of one `for q in queue` iteration on a quad/cubic item
whose head abort poll is negative: program mode, sync, optional
reposition, then the interpolation loop from the next poll index. -/
theorem runQueue_cons_curve (env : DrvEnv) (s : Point)
    (pointAt : Nat → Point) (rest : List CutItem) (c : ConState)
    (pi : Nat) (h0 : env.abortPoll pi = false) :
    runQueue env (CutItem.curveCut s pointAt :: rest) c pi
      = (let c1 := conSync (conProgram c)
         let c2 := if (c1.lastX, c1.lastY) ≠ s then conGoto c1 s else c1
         let r := curveLoop env pointAt 0 env.interpolate c2 (pi + 1)
         if r.2.2 then (r.1, r.2.1, true)
         else runQueue env rest (conUpdate r.1) r.2.1) := by
  rw [runQueue]
  rw [h0]
  rfl

end Newly

namespace Newly

theorem plotStart_if_completed (x : ConState) (pi2 : Nat) :
    (if ((x, pi2, false) : ConState × Nat × Bool).2.2 = true
      then ((x, pi2, false) : ConState × Nat × Bool).1
      else conRapid ((x, pi2, false) : ConState × Nat × Bool).1)
      = conRapid x := rfl

theorem plotStart_if_aborted (x : ConState) (pi2 : Nat) :
    (if ((x, pi2, true) : ConState × Nat × Bool).2.2 = true
      then ((x, pi2, true) : ConState × Nat × Bool).1
      else conRapid ((x, pi2, true) : ConState × Nat × Bool).1)
      = x := rfl

/-- A full no-abort run of `plot_start` on one quad/cubic item: the trace
is program mode, sync, an optional reposition, one mark per
interpolation sample in order, then `update` and `rapid_mode`; the
machine ends in rapid mode. -/
theorem plotStart_curve_no_abort (env : DrvEnv) (s : Point)
    (pointAt : Nat → Point) (c : ConState)
    (hA : ∀ j, env.abortPoll j = false) (hP : ∀ j, env.pausePoll j = 0) :
    (plotStart env [CutItem.curveCut s pointAt] c 0).events
        = c.events ++ [ConEvent.programMode, ConEvent.syncEv]
          ++ (if (c.lastX, c.lastY) ≠ s then [ConEvent.goto s] else [])
          ++ ((List.range env.interpolate).map fun j =>
                ConEvent.mark (pointAt j))
          ++ [ConEvent.update, ConEvent.rapidMode]
    ∧ (plotStart env [CutItem.curveCut s pointAt] c 0).mode
        = Mode.rapid := by
  rw [plotStart, runQueue_cons_curve env s pointAt [] c 0 (hA 0)]
  dsimp only
  set c2 := if ((conSync (conProgram c)).lastX,
        (conSync (conProgram c)).lastY) ≠ s
      then conGoto (conSync (conProgram c)) s
      else conSync (conProgram c) with hc2
  have hcl := curveLoop_run env pointAt hP env.interpolate 0 c2 1
      (fun j _ => hA (1 + j))
  rw [hcl.2.2.2]
  simp only [Bool.false_eq_true, if_false]
  rw [runQueue]
  rw [plotStart_if_completed]
  constructor
  · simp only [conRapid, conUpdate]
    rw [hcl.1]
    have hmarks : ((List.range env.interpolate).map fun j =>
          ConEvent.mark (pointAt (0 + j)))
        = (List.range env.interpolate).map fun j =>
            ConEvent.mark (pointAt j) := by
      refine List.map_congr_left ?_
      intro j _
      rw [Nat.zero_add]
    rw [hmarks]
    by_cases hpos : (c.lastX, c.lastY) ≠ s
    · have hc2e : c2 = conGoto (conSync (conProgram c)) s := by
        rw [hc2]
        exact if_pos (show ((conSync (conProgram c)).lastX,
            (conSync (conProgram c)).lastY) ≠ s from hpos)
      rw [hc2e, if_pos hpos]
      simp [conGoto, conSync, conProgram]
    · have hc2e : c2 = conSync (conProgram c) := by
        rw [hc2]
        exact if_neg (show ¬((conSync (conProgram c)).lastX,
            (conSync (conProgram c)).lastY) ≠ s from hpos)
      rw [hc2e, if_neg hpos]
      simp [conSync, conProgram]
  · simp only [conRapid]

/-- A run of `plot_start` on one quad/cubic item under an abort flag
that turns true at poll index `b` (with `1 ≤ b ≤` the interpolation
resolution): exactly `b - 1` marks are emitted, no further marks follow,
and the machine is left in rapid mode (the early return skips the
trailing `rapid_mode`, but `con.abort()` has already returned the
machine to rapid). -/
theorem plotStart_curve_abort_threshold (env : DrvEnv) (s : Point)
    (pointAt : Nat → Point) (c : ConState) (b : Nat)
    (hA : ∀ j, env.abortPoll j = decide (b ≤ j))
    (hP : ∀ j, env.pausePoll j = 0)
    (hb1 : 1 ≤ b) (hb2 : b ≤ env.interpolate) :
    countMarks (plotStart env [CutItem.curveCut s pointAt] c 0).events
        = countMarks c.events + (b - 1)
    ∧ (plotStart env [CutItem.curveCut s pointAt] c 0).mode
        = Mode.rapid := by
  have h0 : env.abortPoll 0 = false := by
    rw [hA]
    simp
    omega
  rw [plotStart, runQueue_cons_curve env s pointAt [] c 0 h0]
  dsimp only
  set c2 := if ((conSync (conProgram c)).lastX,
        (conSync (conProgram c)).lastY) ≠ s
      then conGoto (conSync (conProgram c)) s
      else conSync (conProgram c) with hc2
  have hcl := curveLoop_abort env pointAt b hA hP env.interpolate 0 1 c2
      (by omega) (by omega)
  rw [if_pos hcl.2.2]
  rw [plotStart_if_aborted]
  have hc2marks : countMarks c2.events = countMarks c.events := by
    rw [hc2]
    by_cases hpos : ((conSync (conProgram c)).lastX,
        (conSync (conProgram c)).lastY) ≠ s
    · rw [if_pos hpos]
      simp [conGoto, conSync, conProgram, countMarks_append, countMarks]
    · rw [if_neg hpos]
      simp [conSync, conProgram, countMarks_append, countMarks]
  refine ⟨?_, hcl.2.1⟩
  rw [hcl.1, hc2marks]

end Newly

namespace Newly

/-- C9: for a quadratic/cubic cut primitive processed by
`NewlyDriver.plot_start` with interpolation resolution `N`, the driver
polls the abort and pause flags before every sample and emits exactly
one mark per evenly spaced sample: with no abort, exactly `N` marks are
emitted, all before the trailing return to rapid mode; if the abort flag
turns true at poll index `b` (i.e. after sample `b - 1`), exactly
`b - 1` marks are emitted, no further marks follow, and rapid mode is
left active. -/
theorem curve_interpolation_marks :
    (∀ (env : DrvEnv) (s : Point) (pointAt : Nat → Point) (c : ConState),
      (∀ j, env.abortPoll j = false) → (∀ j, env.pausePoll j = 0) →
      (plotStart env [CutItem.curveCut s pointAt] c 0).events
          = c.events ++ [ConEvent.programMode, ConEvent.syncEv]
            ++ (if (c.lastX, c.lastY) ≠ s then [ConEvent.goto s] else [])
            ++ ((List.range env.interpolate).map fun j =>
                  ConEvent.mark (pointAt j))
            ++ [ConEvent.update, ConEvent.rapidMode]
      ∧ countMarks (plotStart env [CutItem.curveCut s pointAt] c 0).events
          = countMarks c.events + env.interpolate
      ∧ (plotStart env [CutItem.curveCut s pointAt] c 0).mode
          = Mode.rapid)
    ∧ (∀ (env : DrvEnv) (s : Point) (pointAt : Nat → Point)
        (c : ConState) (b : Nat),
        (∀ j, env.abortPoll j = decide (b ≤ j)) →
        (∀ j, env.pausePoll j = 0) →
        1 ≤ b → b ≤ env.interpolate →
        countMarks (plotStart env [CutItem.curveCut s pointAt] c 0).events
            = countMarks c.events + (b - 1)
        ∧ (plotStart env [CutItem.curveCut s pointAt] c 0).mode
            = Mode.rapid) := by
  constructor
  · intro env s pointAt c hA hP
    obtain ⟨he, hm⟩ := plotStart_curve_no_abort env s pointAt c hA hP
    refine ⟨he, ?_, hm⟩
    rw [he]
    simp only [countMarks_append, countMarks_marks]
    have h1 : countMarks [ConEvent.programMode, ConEvent.syncEv] = 0 := rfl
    have h2 : countMarks [ConEvent.update, ConEvent.rapidMode] = 0 := rfl
    have h3 : countMarks
        (if (c.lastX, c.lastY) ≠ s then [ConEvent.goto s] else []) = 0 := by
      split <;> rfl
    rw [h1, h2, h3]
    omega
  · intro env s pointAt c b hA hP hb1 hb2
    exact plotStart_curve_abort_threshold env s pointAt c b hA hP hb1 hb2

/-- Witness for C9 at concrete inputs: interpolation resolution 20 over
a concrete sampling function; with no abort exactly 20 marks are emitted
and the driver is in rapid mode; with the abort flag turning true at
poll index 6 (after sample 5) exactly 5 marks are emitted and rapid mode
is left active. -/
theorem curve_interpolation_marks_witness :
    countMarks (plotStart
        { interpolate := 20
          abortPoll := fun _ => false
          pausePoll := fun _ => 0 }
        [CutItem.curveCut (0, 0) fun k => ((k : Int), 1)]
        { mode := Mode.rapid, lastX := 0, lastY := 0, events := [] }
        0).events = 20
    ∧ (plotStart
        { interpolate := 20
          abortPoll := fun _ => false
          pausePoll := fun _ => 0 }
        [CutItem.curveCut (0, 0) fun k => ((k : Int), 1)]
        { mode := Mode.rapid, lastX := 0, lastY := 0, events := [] }
        0).mode = Mode.rapid
    ∧ countMarks (plotStart
        { interpolate := 20
          abortPoll := fun j => decide (6 ≤ j)
          pausePoll := fun _ => 0 }
        [CutItem.curveCut (0, 0) fun k => ((k : Int), 1)]
        { mode := Mode.rapid, lastX := 0, lastY := 0, events := [] }
        0).events = 5
    ∧ (plotStart
        { interpolate := 20
          abortPoll := fun j => decide (6 ≤ j)
          pausePoll := fun _ => 0 }
        [CutItem.curveCut (0, 0) fun k => ((k : Int), 1)]
        { mode := Mode.rapid, lastX := 0, lastY := 0, events := [] }
        0).mode = Mode.rapid := by
  have h1 := curve_interpolation_marks.1
      { interpolate := 20
        abortPoll := fun _ => false
        pausePoll := fun _ => 0 }
      (0, 0) (fun k => ((k : Int), 1))
      { mode := Mode.rapid, lastX := 0, lastY := 0, events := [] }
      (fun _ => rfl) (fun _ => rfl)
  have h2 := curve_interpolation_marks.2
      { interpolate := 20
        abortPoll := fun j => decide (6 ≤ j)
        pausePoll := fun _ => 0 }
      (0, 0) (fun k => ((k : Int), 1))
      { mode := Mode.rapid, lastX := 0, lastY := 0, events := [] } 6
      (fun _ => rfl) (fun _ => rfl) (by decide) (by decide)
  exact ⟨h1.2.1, h1.2.2, h2.1, h2.2⟩

end Newly

namespace Newly

/-- C10 counterexample: with no abort requested, a `ConnectionError`
raised by `set_xy` during `move_abs` (and `move_rel`) is still
swallowed — the `except ConnectionError: pass` in both methods is
unconditional and never consults the abort state — contradicting the
claim that such errors are swallowed only when an abort has already
been requested. -/
theorem move_error_swallow_counterexample :
    move_abs
        { syncErr := none
          setXyErr := some XErr.connectionError
          updateErr := none
          abortRequested := false } = Except.ok ()
    ∧ ({ syncErr := none
         setXyErr := some XErr.connectionError
         updateErr := none
         abortRequested := false } : MoveEnv).abortRequested = false
    ∧ move_rel
        { syncErr := none
          setXyErr := some XErr.connectionError
          updateErr := none
          abortRequested := false } = Except.ok () :=
  ⟨rfl, rfl, rfl⟩

/-- C10 (amended): in `move_abs` and `move_rel` a `ConnectionError`
raised while issuing the position command (`set_xy`) is always
swallowed, regardless of whether an abort has been requested; all other
transport errors — a non-`ConnectionError` exception from `set_xy`, and
any error raised by `sync` or `update` — propagate to the caller. -/
theorem move_error_handling :
    ∀ (env : MoveEnv),
      (env.syncErr = none → env.setXyErr = some XErr.connectionError →
        (env.updateErr = none →
          move_abs env = Except.ok () ∧ move_rel env = Except.ok ())
        ∧ (∀ e, env.updateErr = some e →
            move_abs env = Except.error e ∧ move_rel env = Except.error e))
      ∧ (env.syncErr = none → env.setXyErr = some XErr.otherError →
          move_abs env = Except.error XErr.otherError
          ∧ move_rel env = Except.error XErr.otherError)
      ∧ (∀ e, env.syncErr = some e →
          move_abs env = Except.error e ∧ move_rel env = Except.error e)
      ∧ (env.syncErr = none → env.setXyErr = none →
          ∀ e, env.updateErr = some e →
            move_abs env = Except.error e ∧ move_rel env = Except.error e) := by
  intro env
  obtain ⟨es, ex, eu, ab⟩ := env
  refine ⟨?_, ?_, ?_, ?_⟩
  · intro hs hx
    dsimp only at hs hx
    subst hs
    subst hx
    constructor
    · intro hu
      dsimp only at hu
      subst hu
      exact ⟨rfl, rfl⟩
    · intro e hu
      dsimp only at hu
      subst hu
      exact ⟨rfl, rfl⟩
  · intro hs hx
    dsimp only at hs hx
    subst hs
    subst hx
    exact ⟨rfl, rfl⟩
  · intro e hs
    dsimp only at hs
    subst hs
    exact ⟨rfl, rfl⟩
  · intro hs hx e hu
    dsimp only at hs hx hu
    subst hs
    subst hx
    subst hu
    exact ⟨rfl, rfl⟩

/-- Witness for C10 (amended) at concrete inputs: a `ConnectionError`
from `set_xy` is swallowed both with and without a pending abort; a
non-`ConnectionError` from `set_xy` propagates; an error from `sync`
propagates. -/
theorem move_error_handling_witness :
    (move_abs
        { syncErr := none
          setXyErr := some XErr.connectionError
          updateErr := none
          abortRequested := true } = Except.ok ()
      ∧ move_rel
        { syncErr := none
          setXyErr := some XErr.connectionError
          updateErr := none
          abortRequested := true } = Except.ok ())
    ∧ (move_abs
        { syncErr := none
          setXyErr := some XErr.otherError
          updateErr := none
          abortRequested := false } = Except.error XErr.otherError
      ∧ move_rel
        { syncErr := none
          setXyErr := some XErr.otherError
          updateErr := none
          abortRequested := false } = Except.error XErr.otherError)
    ∧ (move_abs
        { syncErr := some XErr.connectionError
          setXyErr := none
          updateErr := none
          abortRequested := false } = Except.error XErr.connectionError
      ∧ move_rel
        { syncErr := some XErr.connectionError
          setXyErr := none
          updateErr := none
          abortRequested := false } = Except.error XErr.connectionError) :=
  ⟨(move_error_handling
      { syncErr := none
        setXyErr := some XErr.connectionError
        updateErr := none
        abortRequested := true }).1 rfl rfl |>.1 rfl,
    (move_error_handling
      { syncErr := none
        setXyErr := some XErr.otherError
        updateErr := none
        abortRequested := false }).2.1 rfl rfl,
    (move_error_handling
      { syncErr := some XErr.connectionError
        setXyErr := none
        updateErr := none
        abortRequested := false }).2.2.1 XErr.connectionError rfl⟩

end Newly
